import Mathlib

/-!
Verification of the Rancher multi-cluster audit-log analyzer
(`src/audit-run.py`, class `RancherAuditAnalyzer`).

The Python source is embedded shallowly: every method becomes an executable
Lean function.  Strings are processed as `List Char` internally so that all
definitions evaluate by kernel reduction; Python exceptions are modelled with
`Except String`, Python `None` with `Option`.  Calls into the Python standard
library (`json.loads`, `urllib.parse.parse_qs`, `re.search`,
`datetime.fromisoformat`) are modelled by explicit Lean functions whose doc
comments state the modelled behaviour.
-/

namespace AuditRun

/-- Python `s.split(c)` for a one-character separator: `"".split(c) = [""]`,
and separators at either end produce empty segments. -/
def splitOnChar (c : Char) : List Char → List (List Char)
  | [] => [[]]
  | x :: xs =>
    let r := splitOnChar c xs
    if x = c then [] :: r
    else
      match r with
      | h :: t => (x :: h) :: t
      | [] => [[x]]

/-- Python `s.strip(c)`: remove every leading and trailing occurrence of `c`. -/
def stripChar (c : Char) (l : List Char) : List Char :=
  ((l.dropWhile (fun x => x = c)).reverse.dropWhile (fun x => x = c)).reverse

/-- Does `p` occur at the very start of `l`?  (Helper for Python's substring
operator `in` and `str.startswith`.) -/
def startsWithL : List Char → List Char → Bool
  | [], _ => true
  | _ :: _, [] => false
  | p :: ps, x :: xs => p = x && startsWithL ps xs

/-- Python substring containment `pat in s`. -/
def containsSub (pat : List Char) : List Char → Bool
  | [] => startsWithL pat []
  | l@(_ :: xs) => startsWithL pat l || containsSub pat xs

def isHexChar (c : Char) : Bool :=
  ('0' ≤ c && c ≤ '9') || ('a' ≤ c && c ≤ 'f') || ('A' ≤ c && c ≤ 'F')

def hexVal (c : Char) : Nat :=
  if '0' ≤ c && c ≤ '9' then c.toNat - '0'.toNat
  else if 'a' ≤ c && c ≤ 'f' then c.toNat - 'a'.toNat + 10
  else if 'A' ≤ c && c ≤ 'F' then c.toNat - 'A'.toNat + 10
  else 0

/-- Python `urllib.parse.unquote_plus` restricted to single-byte escapes:
`+` becomes a space, `%XX` with two hex digits becomes the code point `XX`
(multi-byte UTF-8 escape sequences are not reassembled; no claim touches
them).  Invalid escapes are kept verbatim, as in CPython. -/
def pyUnquotePlus : List Char → List Char
  | [] => []
  | '+' :: rest => ' ' :: pyUnquotePlus rest
  | '%' :: a :: b :: rest =>
    if isHexChar a && isHexChar b then
      Char.ofNat (16 * hexVal a + hexVal b) :: pyUnquotePlus rest
    else '%' :: pyUnquotePlus (a :: b :: rest)
  | c :: rest => c :: pyUnquotePlus rest

/-- Python `name_value.split('=', 1)`, as `none` when there is no `=`. -/
def splitFirstEq : List Char → Option (List Char × List Char)
  | [] => none
  | c :: rest =>
    if c = '=' then some ([], rest)
    else (splitFirstEq rest).map (fun p => (c :: p.1, p.2))

/-- One `key=value` field of a query string, following
`urllib.parse.parse_qsl` with default options: empty fields, fields without
`=`, and fields whose value is empty are all dropped; name and value are
unquoted. -/
def fieldParse (f : List Char) : Option (List Char × List Char) :=
  match splitFirstEq f with
  | none => none
  | some (n, v) => if v = [] then none else some (pyUnquotePlus n, pyUnquotePlus v)

/-- `parse_qs` grouping: the first occurrence of a key fixes its position,
later values for the same key are appended. -/
def addPair (m : List (List Char × List (List Char))) (n v : List Char) :
    List (List Char × List (List Char)) :=
  if (m.find? (fun p => p.1 == n)).isSome then
    m.map (fun p => if p.1 = n then (p.1, p.2 ++ [v]) else p)
  else m ++ [(n, [v])]

/-- Python `urllib.parse.parse_qs` with default options (separator `&`). -/
def pyParseQs (q : List Char) : List (List Char × List (List Char)) :=
  ((splitOnChar '&' q).filterMap fieldParse).foldl (fun m p => addPair m p.1 p.2) []

/-- A flattened query-parameter value: `v[0] if len(v) == 1 else v`
(src/audit-run.py line 104). -/
inductive QVal where
  | one (s : String)
  | many (vs : List String)
deriving DecidableEq, Repr

def flattenParams (m : List (List Char × List (List Char))) : List (String × QVal) :=
  m.map fun p =>
    (String.mk p.1,
     match p.2 with
     | [v] => QVal.one (String.mk v)
     | vs => QVal.many (vs.map String.mk))

/-- The `resource_info` dictionary built by `analyze_request_uri`
(src/audit-run.py lines 59-65); `ns` is the `'namespace'` entry. -/
structure ResourceInfo where
  api_group : String
  version : String
  resource : String
  namespaced : Bool
  ns : Option String
  query_params : List (String × QVal)
deriving DecidableEq, Repr

/-- `RancherAuditAnalyzer.analyze_request_uri` (src/audit-run.py lines 51-109).
The guarded Python list indexings `parts[i]` (each protected by a `len`
check) are rendered with `getD`. -/
def analyze_request_uri (uri : String) : ResourceInfo :=
  let u := uri.data
  let base_uri := (splitOnChar '?' u).headD []
  let parts := splitOnChar '/' (stripChar '/' base_uri)
  let r0 : ResourceInfo :=
    { api_group := "core", version := "v1", resource := "unknown",
      namespaced := false, ns := none, query_params := [] }
  let r :=
    if 2 ≤ parts.length then
      if parts.headD [] = "api".data then
        let r1 := { r0 with version := String.mk (parts.getD 1 []) }
        if 2 < parts.length then
          if parts.getD 2 [] = "namespaces".data ∧ 3 < parts.length then
            let r2 := { r1 with ns := some (String.mk (parts.getD 3 [])),
                                namespaced := true }
            if 4 < parts.length then { r2 with resource := String.mk (parts.getD 4 []) }
            else { r2 with resource := "namespaces" }
          else { r1 with resource := String.mk (parts.getD 2 []) }
        else r1
      else if parts.headD [] = "apis".data then
        if 2 < parts.length then
          let r1 := { r0 with api_group := String.mk (parts.getD 1 []),
                              version := String.mk (parts.getD 2 []) }
          if 3 < parts.length then
            if parts.getD 3 [] = "namespaces".data ∧ 4 < parts.length then
              let r2 := { r1 with ns := some (String.mk (parts.getD 4 [])),
                                  namespaced := true }
              if 5 < parts.length then { r2 with resource := String.mk (parts.getD 5 []) }
              else r2
            else { r1 with resource := String.mk (parts.getD 3 []) }
          else r1
        else r0
      else r0
    else r0
  let qp :=
    if containsSub "?".data u then
      flattenParams (pyParseQs ((splitOnChar '?' u).getD 1 []))
    else []
  { r with query_params := qp }

/-- `RancherAuditAnalyzer.is_watch_request` (lines 111-113): a raw substring
check on the full URI. -/
def is_watch_request (uri : String) : Bool :=
  containsSub "watch=true".data uri.data

/-- Strip an exact literal from the front of `l` (a literal piece of the
regular expression). -/
def dropLit : List Char → List Char → Option (List Char)
  | [], l => some l
  | _ :: _, [] => none
  | p :: ps, x :: xs => if p = x then dropLit ps xs else none

/-- One attempt of `re.search(r'cattle-system-([^:]+):cattle-([^:]+)', u)`
(line 41) at a fixed start position, returning the first capture group.
`[^:]+` is greedy and the literal that follows begins with `:`, so the first
group is exactly the maximal colon-free run after `cattle-system-`; the
second group only requires one further non-colon character. -/
def tryCattle (l : List Char) : Option (List Char) :=
  match dropLit "cattle-system-".data l with
  | none => none
  | some r1 =>
    let g1 := r1.takeWhile (fun c => c ≠ ':')
    if g1 = [] then none
    else
      match dropLit ":cattle-".data (r1.dropWhile (fun c => c ≠ ':')) with
      | none => none
      | some r2 =>
        match r2 with
        | [] => none
        | c :: _ => if c = ':' then none else some g1

/-- `re.search`: try every start position, leftmost match wins. -/
def searchCattle : List Char → Option (List Char)
  | [] => none
  | l@(_ :: xs) =>
    match tryCattle l with
    | some g => some g
    | none => searchCattle xs

/-- `RancherAuditAnalyzer.extract_cluster_id` (lines 36-49) applied to the
username string (`user_info.get('username', '')`). -/
def clusterIdOfUsername (username : String) : String :=
  match searchCattle username.data with
  | some g => "rancher-" ++ String.mk g
  | none =>
    if username = "kwok-admin" ∨ username = "system:apiserver"
        ∨ startsWithL "system:".data username.data then
      "kwok-system"
    else "unknown"

def digitVal (c : Char) : Nat := c.toNat - '0'.toNat

def allDigits (l : List Char) : Bool := l.all (fun c => '0' ≤ c && c ≤ '9')

def natOfDigits (l : List Char) : Nat := l.foldl (fun a c => 10 * a + digitVal c) 0

def isLeap (y : Nat) : Bool := (y % 4 = 0 && y % 100 ≠ 0) || y % 400 = 0

def daysInMonth (y m : Nat) : Nat :=
  if m = 2 then (if isLeap y then 29 else 28)
  else if m = 4 || m = 6 || m = 9 || m = 11 then 30
  else 31

/-- Days since 1970-01-01 of a proleptic-Gregorian date (the standard
days-from-civil formula; all intermediate values are nonnegative for
year ≥ 1). -/
def daysFromCivil (y m d : Nat) : Int :=
  let yy : Int := if m ≤ 2 then (y : Int) - 1 else (y : Int)
  let era : Int := yy / 400
  let yoe : Int := yy - era * 400
  let mp : Int := if 2 < m then (m : Int) - 3 else (m : Int) + 9
  let doy : Int := (153 * mp + 2) / 5 + (d : Int) - 1
  let doe : Int := yoe * 365 + yoe / 4 - yoe / 100 + doy
  era * 146097 + doe - 719468

/-- Split at the first occurrence of `c`. -/
def findCharSplit (c : Char) : List Char → Option (List Char × List Char)
  | [] => none
  | x :: xs =>
    if x = c then some ([], xs)
    else (findCharSplit c xs).map (fun p => (x :: p.1, p.2))

/-- CPython looks for a `-` first, then a `+`, to locate a UTC offset inside
the time part of an ISO timestamp. -/
def splitAtSign (l : List Char) : Option (List Char × Bool × List Char) :=
  match findCharSplit '-' l with
  | some (a, b) => some (a, true, b)
  | none =>
    match findCharSplit '+' l with
    | some (a, b) => some (a, false, b)
    | none => none

/-- `HH[:MM[:SS[.fff | .ffffff]]]` to (hour, minute, second, microsecond). -/
def parseHMS : List Char → Option (Nat × Nat × Nat × Nat)
  | [h1, h2] =>
    if allDigits [h1, h2] then some (natOfDigits [h1, h2], 0, 0, 0) else none
  | [h1, h2, ':', m1, m2] =>
    if allDigits [h1, h2, m1, m2] then
      some (natOfDigits [h1, h2], natOfDigits [m1, m2], 0, 0)
    else none
  | [h1, h2, ':', m1, m2, ':', s1, s2] =>
    if allDigits [h1, h2, m1, m2, s1, s2] then
      some (natOfDigits [h1, h2], natOfDigits [m1, m2], natOfDigits [s1, s2], 0)
    else none
  | h1 :: h2 :: ':' :: m1 :: m2 :: ':' :: s1 :: s2 :: '.' :: fs =>
    if allDigits ([h1, h2, m1, m2, s1, s2] ++ fs) then
      if fs.length = 3 then
        some (natOfDigits [h1, h2], natOfDigits [m1, m2], natOfDigits [s1, s2],
              natOfDigits fs * 1000)
      else if fs.length = 6 then
        some (natOfDigits [h1, h2], natOfDigits [m1, m2], natOfDigits [s1, s2],
              natOfDigits fs)
      else none
    else none
  | _ => none

/-- A `±HH:MM` UTC offset, in seconds. -/
def parseTz (l : List Char) : Option Int :=
  match l with
  | [h1, h2, ':', m1, m2] =>
    if allDigits [h1, h2, m1, m2] && natOfDigits [m1, m2] < 60
        && natOfDigits [h1, h2] < 24 then
      some ((natOfDigits [h1, h2] : Int) * 3600 + (natOfDigits [m1, m2] : Int) * 60)
    else none
  | _ => none

def parseTimePart (t : List Char) : Option (Nat × Nat × Nat × Nat × Int) :=
  match splitAtSign t with
  | none => (parseHMS t).map (fun x => (x.1, x.2.1, x.2.2.1, x.2.2.2, (0 : Int)))
  | some (ts, neg, tz) =>
    match parseHMS ts, parseTz tz with
    | some x, some off =>
      some (x.1, x.2.1, x.2.2.1, x.2.2.2, if neg then -off else off)
    | _, _ => none

/-- Modelled from the Python stdlib: `datetime.fromisoformat` for the common
`YYYY-MM-DD[<sep>HH[:MM[:SS[.ffffff]]]][±HH:MM]` shapes, mapped to
microseconds on one linear time axis (offset-naive values are placed at
offset zero).  Only parse success/failure and the linear order of the
results are relied upon by the theorems. -/
def pyFromisoformat (l : List Char) : Option Int :=
  match l with
  | y1 :: y2 :: y3 :: y4 :: '-' :: m1 :: m2 :: '-' :: d1 :: d2 :: rest =>
    if allDigits [y1, y2, y3, y4, m1, m2, d1, d2] then
      let y := natOfDigits [y1, y2, y3, y4]
      let m := natOfDigits [m1, m2]
      let d := natOfDigits [d1, d2]
      if 1 ≤ y && 1 ≤ m && m ≤ 12 && 1 ≤ d && d ≤ daysInMonth y m then
        let date := daysFromCivil y m d * 86400
        match rest with
        | [] => some (date * 1000000)
        | _sep :: t =>
          match parseTimePart t with
          | none => none
          | some (h, mi, s, us, off) =>
            if h < 24 && mi < 60 && s < 60 then
              some ((date + (h : Int) * 3600 + (mi : Int) * 60 + (s : Int) - off) * 1000000
                    + (us : Int))
            else none
      else none
    else none
  | _ => none

/-- JSON values as returned by Python `json.loads` (objects are
insertion-ordered dicts with unique keys; numbers are modelled as integers,
which covers every value the analyzer inspects). -/
inductive Json where
  | null
  | bool (b : Bool)
  | num (n : Int)
  | str (s : String)
  | arr (elems : List Json)
  | obj (fields : List (String × Json))

/-- Python truthiness of a decoded JSON value. -/
def jsonTruthy : Json → Bool
  | .null => false
  | .bool b => b
  | .num n => n ≠ 0
  | .str s => s ≠ ""
  | .arr l => !l.isEmpty
  | .obj l => !l.isEmpty

/-- Equality of a JSON value with a Python string (used by
`stage not in ['ResponseComplete', 'ResponseStarted']`). -/
def jeqStr (j : Json) (s : String) : Bool :=
  match j with
  | .str t => t = s
  | _ => false

/-- Python hashability of a decoded JSON value: using a list or dict as a
dict key raises `TypeError`. -/
def jsonHashable : Json → Bool
  | .arr _ => false
  | .obj _ => false
  | _ => true

/-- Equality used by `Counter` for the hashable JSON scalars that can appear
as `verb` keys (unhashable values raise before equality is consulted). -/
def jsonScalarEq (a b : Json) : Bool :=
  match a, b with
  | .null, .null => true
  | .bool x, .bool y => x = y
  | .num x, .num y => x = y
  | .str x, .str y => x = y
  | _, _ => false

/-- The `request_data` dictionary (lines 142-151). -/
structure RequestData where
  timestamp : Json
  parsed_timestamp : Option Int
  uri : String
  verb : Json
  resource_info : ResourceInfo
  user : Json
  user_agent : Json
  stage : Json

/-- One value of the `clusters` defaultdict (lines 16-25). -/
structure ClusterData where
  requests : List RequestData
  endpoints : List (String × Nat)
  verbs : List (Json × Nat)
  resources : List (String × Nat)
  watch_streams : List RequestData
  namespaces_accessed : List String
  first_seen : Option Int
  last_seen : Option Int

def defaultClusterData : ClusterData :=
  { requests := [], endpoints := [], verbs := [], resources := [],
    watch_streams := [], namespaces_accessed := [],
    first_seen := none, last_seen := none }

/-- Mutable analyzer state (lines 15-27). -/
structure AnalyzerState where
  clusters : List (String × ClusterData)
  system_requests : List RequestData
  total_requests : Nat

def initState : AnalyzerState :=
  { clusters := [], system_requests := [], total_requests := 0 }

/-- `Counter[k] += 1` for string keys: update in place or append a new key
(Python dicts preserve insertion order). -/
def counterInc (m : List (String × Nat)) (k : String) : List (String × Nat) :=
  if (m.find? (fun p => p.1 == k)).isSome then
    m.map (fun p => if p.1 = k then (p.1, p.2 + 1) else p)
  else m ++ [(k, 1)]

/-- `Counter[verb] += 1` for (hashable) JSON keys. -/
def counterIncJ (m : List (Json × Nat)) (k : Json) : List (Json × Nat) :=
  if (m.find? (fun p => jsonScalarEq p.1 k)).isSome then
    m.map (fun p => if jsonScalarEq p.1 k then (p.1, p.2 + 1) else p)
  else m ++ [(k, 1)]

/-- `set.add`, modelled with a duplicate-free list. -/
def addToSet (s : List String) (x : String) : List String :=
  if s.contains x then s else s ++ [x]

/-- Writing back one entry of the `clusters` defaultdict: replace in place,
or append the new key at the end. -/
def setCluster (m : List (String × ClusterData)) (k : String) (v : ClusterData) :
    List (String × ClusterData) :=
  if (m.find? (fun p => p.1 == k)).isSome then
    m.map (fun p => if p.1 = k then (p.1, v) else p)
  else m ++ [(k, v)]

/-- Reading `self.clusters[cluster_id]` (a defaultdict: a fresh default
entry when the key is absent). -/
def getCluster (m : List (String × ClusterData)) (k : String) : ClusterData :=
  match m.find? (fun p => p.1 == k) with
  | some p => p.2
  | none => defaultClusterData

/-- Lines 137-140: `datetime.fromisoformat(timestamp.replace('Z', '+00:00'))`
inside `try/except`; any failure (including a non-string timestamp, whose
`.replace` raises) yields `None`. -/
def replaceZ : List Char → List Char
  | [] => []
  | 'Z' :: rest => '+' :: '0' :: '0' :: ':' :: '0' :: '0' :: replaceZ rest
  | c :: rest => c :: replaceZ rest

def parse_ts (timestamp : Json) : Option Int :=
  match timestamp with
  | .str s => pyFromisoformat (replaceZ s.data)
  | _ => none

/-- `RancherAuditAnalyzer.extract_cluster_id` (lines 36-49).
`user_info.get` raises `AttributeError` on a non-dict, and `re.search`
raises `TypeError` on a non-string username. -/
def extract_cluster_id (user_info : Json) : Except String String :=
  match user_info with
  | .obj kvs =>
    match (kvs.lookup "username").getD (Json.str "") with
    | .str username => .ok (clusterIdOfUsername username)
    | _ => .error "TypeError: expected string or bytes-like object"
  | _ => .error "AttributeError: no attribute get"

/-- Lines 173-178: widen `first_seen`/`last_seen` monotonically when a
parsed timestamp exists (`if ts:` — a datetime is always truthy, `None` is
falsy, and stored datetimes are always truthy under `if not ...`). -/
def widenSeen (ts : Option Int) (cd : ClusterData) : ClusterData :=
  match ts with
  | none => cd
  | some t =>
    { cd with
      first_seen := match cd.first_seen with
                    | none => some t
                    | some a => if t < a then some t else some a,
      last_seen := match cd.last_seen with
                   | none => some t
                   | some b => if b < t then some t else some b }

/-- The per-cluster mutations of `analyze_entry` (lines 156-178), applied to
one `ClusterData` value. -/
def update_cluster_data (request_data : RequestData) (uri : String) (verb : Json)
    (resource_info : ResourceInfo) (ts : Option Int) (cd : ClusterData) : ClusterData :=
  let cd := { cd with requests := cd.requests ++ [request_data] }
  let cd := { cd with endpoints :=
                counterInc cd.endpoints (String.mk ((splitOnChar '?' uri.data).headD [])) }
  let cd := { cd with verbs := counterIncJ cd.verbs verb }
  let cd := { cd with resources :=
                counterInc cd.resources (resource_info.api_group ++ "/" ++ resource_info.resource) }
  let cd :=
    match resource_info.ns with
    | some n =>
      if n = "" then cd
      else { cd with namespaces_accessed := addToSet cd.namespaces_accessed n }
    | none => cd
  let cd :=
    if is_watch_request uri then { cd with watch_streams := cd.watch_streams ++ [request_data] }
    else cd
  widenSeen ts cd

/-- `RancherAuditAnalyzer.analyze_entry` (lines 115-178).  An uncaught Python
exception — which aborts the whole run via the handler in `main` — is an
`Except.error`.  (The `user` field of `request_data` re-reads
`user.get('username', '')`; the non-dict fallback there is unreachable
because `extract_cluster_id` has already succeeded.) -/
def analyze_entry (entry : Json) (st0 : AnalyzerState) : Except String AnalyzerState :=
  if jsonTruthy entry = false then .ok st0
  else
    let st := { st0 with total_requests := st0.total_requests + 1 }
    match entry with
    | Json.obj kvs =>
      let timestamp := (kvs.lookup "requestReceivedTimestamp").getD Json.null
      let user := (kvs.lookup "user").getD (Json.obj [])
      let uriJ := (kvs.lookup "requestURI").getD (Json.str "")
      let verb := (kvs.lookup "verb").getD (Json.str "")
      let stage := (kvs.lookup "stage").getD (Json.str "")
      if (jeqStr stage "ResponseComplete" || jeqStr stage "ResponseStarted") = false then
        .ok st
      else
        match extract_cluster_id user with
        | .error e => .error e
        | .ok cluster_id =>
          match uriJ with
          | Json.str uri =>
            let resource_info := analyze_request_uri uri
            let ts := parse_ts timestamp
            let request_data : RequestData :=
              { timestamp := timestamp, parsed_timestamp := ts, uri := uri,
                verb := verb, resource_info := resource_info,
                user := (match user with
                         | Json.obj ukvs => (ukvs.lookup "username").getD (Json.str "")
                         | _ => Json.str ""),
                user_agent := (kvs.lookup "userAgent").getD (Json.str ""),
                stage := stage }
            if cluster_id = "kwok-system" then
              .ok { st with system_requests := st.system_requests ++ [request_data] }
            else if jsonHashable verb = false then
              .error "TypeError: unhashable type"
            else
              let cd := update_cluster_data request_data uri verb resource_info ts
                          (getCluster st.clusters cluster_id)
              .ok { st with clusters := setCluster st.clusters cluster_id cd }
          | _ => .error "AttributeError: no attribute split"
    | _ => .error "AttributeError: no attribute get"

/-- The per-line body of `analyze_file` (lines 186-188):
`entry = self.parse_log_line(line); if entry: self.analyze_entry(entry)`.
`parse_log_line` (lines 29-34) wraps `json.loads` in `try/except` and
returns `None` on `JSONDecodeError`; its result is passed in here as an
`Option Json` (`none` = decode failure). -/
def handle_line (decoded : Option Json) (st : AnalyzerState) : Except String AnalyzerState :=
  match decoded with
  | none => .ok st
  | some entry => if jsonTruthy entry then analyze_entry entry st else .ok st

/-- One `EndpointOverlap` issue of `detect_issues` (lines 296-299), carrying
the data interpolated into the issue message: the tenant pair, the shared
endpoint count, and the overlap percentage `len(overlap)/len(union)*100`
(exact rational arithmetic in place of Python floats). -/
structure EndpointOverlap where
  cluster1 : String
  cluster2 : String
  shared : Nat
  overlap_pct : ℚ
deriving DecidableEq, Repr

/-- Python `len(s1 | s2)` for duplicate-free lists. -/
def unionLen (s1 s2 : List String) : Nat :=
  (s1 ++ s2.filter (fun e => !s1.contains e)).length

/-- Lines 296-299: the candidate finding for one ordered pair `(i, j)` with
`i < j`, emitted iff the intersection has more than 5 elements. -/
def overlapFinding (c1 : String) (s1 : List String) (c2 : String) (s2 : List String) :
    Option EndpointOverlap :=
  let overlap := s1.filter (fun e => s2.contains e)
  if 5 < overlap.length then
    some { cluster1 := c1, cluster2 := c2, shared := overlap.length,
           overlap_pct := (overlap.length : ℚ) / (unionLen s1 s2 : ℚ) * 100 }
  else none

/-- The double loop of lines 293-299
(`for i, c1 in enumerate(ids): for c2 in ids[i+1:]`). -/
def pairFindings : List (String × List String) → List EndpointOverlap
  | [] => []
  | (c1, s1) :: rest =>
    rest.filterMap (fun p => overlapFinding c1 s1 p.1 p.2) ++ pairFindings rest

/-- The endpoint-overlap part of `detect_issues` (lines 273, 288-299): runs
only when more than one cluster exists, over each cluster's endpoint key
set.  (The namespace-overlap part, lines 283-286, iterates a Python set in
unspecified order and is needed by no claim.) -/
def detect_endpoint_overlaps (clusters : List (String × ClusterData)) : List EndpointOverlap :=
  if 1 < clusters.length then
    pairFindings (clusters.map (fun p => (p.1, p.2.endpoints.map Prod.fst)))
  else []

/-- The spec's "valueless" query field: no `=` at all, or an empty value
after the first `=`. -/
def valuelessField (f : List Char) : Prop :=
  ('=' ∉ f) ∨ ∃ nm, '=' ∉ nm ∧ f = nm ++ ['=']

/-- The amended tenant marker of C4: a `cattle-system-A:cattle-B` segment
whose identifiers `A` and `B` are independent nonempty colon-free runs (the
regex on line 41 never compares its two capture groups). -/
def cattleMarker (u : List Char) : Prop :=
  ∃ p A B s, u = p ++ "cattle-system-".data ++ A ++ ":cattle-".data ++ B ++ s ∧
    A ≠ [] ∧ ':' ∉ A ∧ B ≠ [] ∧ ':' ∉ B

/-- `first_seen`/`last_seen` are both unset, or both set and ordered. -/
def tsOrdered (cd : ClusterData) : Prop :=
  (cd.first_seen = none ∧ cd.last_seen = none) ∨
  (∃ a b, cd.first_seen = some a ∧ cd.last_seen = some b ∧ a ≤ b)

/-- The aggregate-state invariant of C8: every stored profile has an ordered
timestamp range, and the reserved system sentinel is never a key of the
cluster map. -/
def stateInv (st : AnalyzerState) : Prop :=
  ∀ p ∈ st.clusters, p.1 ≠ "kwok-system" ∧ tsOrdered p.2

/-! ### Lemmas about the string helpers -/

theorem startsWithL_iff (p l : List Char) :
    startsWithL p l = true ↔ ∃ t, l = p ++ t := by
  induction p generalizing l with
  | nil => simp [startsWithL]
  | cons x xs ih =>
    cases l with
    | nil => simp [startsWithL]
    | cons y ys =>
      simp only [startsWithL, Bool.and_eq_true, decide_eq_true_eq, ih,
        List.cons_append, List.cons_eq_cons]
      constructor
      · rintro ⟨rfl, t, rfl⟩; exact ⟨t, rfl, rfl⟩
      · rintro ⟨t, rfl, rfl⟩; exact ⟨rfl, t, rfl⟩

theorem containsSub_iff (p l : List Char) :
    containsSub p l = true ↔ ∃ s t, l = s ++ p ++ t := by
  induction l with
  | nil =>
    simp only [containsSub, startsWithL_iff]
    constructor
    · rintro ⟨t, ht⟩; exact ⟨[], t, ht⟩
    · rintro ⟨s, t, h⟩
      rcases List.append_eq_nil.mp h.symm with ⟨h1, h2⟩
      rcases List.append_eq_nil.mp h1 with ⟨rfl, rfl⟩
      exact ⟨t, h2.symm⟩
  | cons x xs ih =>
    simp only [containsSub, Bool.or_eq_true, startsWithL_iff, ih]
    constructor
    · rintro (⟨t, ht⟩ | ⟨s, t, ht⟩)
      · exact ⟨[], t, by simpa using ht⟩
      · exact ⟨x :: s, t, by simp [ht]⟩
    · rintro ⟨s, t, ht⟩
      cases s with
      | nil => exact Or.inl ⟨t, by simpa using ht⟩
      | cons y s' =>
        rcases List.cons_eq_cons.mp (by simpa using ht) with ⟨rfl, h2⟩
        exact Or.inr ⟨s', t, by rw [List.append_assoc]; exact h2⟩

theorem splitOnChar_ne_nil (c : Char) (l : List Char) : splitOnChar c l ≠ [] := by
  cases l with
  | nil => simp [splitOnChar]
  | cons x xs =>
    simp only [splitOnChar]
    split
    · simp
    · split <;> simp

theorem splitOnChar_not_mem {c : Char} {l : List Char} (h : c ∉ l) :
    splitOnChar c l = [l] := by
  induction l with
  | nil => rfl
  | cons x xs ih =>
    simp only [List.mem_cons, not_or] at h
    have hx : ¬ (x = c) := fun hc => h.1 hc.symm
    simp only [splitOnChar, if_neg hx, ih h.2]

theorem splitOnChar_append (c : Char) (a b : List Char) :
    splitOnChar c (a ++ c :: b) = splitOnChar c a ++ splitOnChar c b := by
  induction a with
  | nil => simp [splitOnChar]
  | cons x xs ih =>
    by_cases hx : x = c
    · subst hx
      simp [splitOnChar, ih]
    · obtain ⟨h0, t0, hs⟩ := List.exists_cons_of_ne_nil (splitOnChar_ne_nil c xs)
      simp [splitOnChar, hx, ih, hs]

theorem containsSub_single_eq_false {c : Char} {l : List Char} (h : c ∉ l) :
    containsSub [c] l = false := by
  cases hb : containsSub [c] l with
  | false => rfl
  | true =>
    rcases (containsSub_iff _ _).mp hb with ⟨s, t, rfl⟩
    exact absurd (by simp) h

theorem stripChar_cons_self (c : Char) (l : List Char) :
    stripChar c (c :: l) = stripChar c l := by
  simp [stripChar, List.dropWhile_cons]

theorem dropWhile_rev_concat (c y : Char) (hy : y ≠ c) (m : List Char) :
    ((m ++ [y]).reverse.dropWhile (fun z => z = c)).reverse = m ++ [y] := by
  simp [List.reverse_append, List.dropWhile_cons, hy]

theorem stripChar_concat (c x y : Char) (hx : x ≠ c) (hy : y ≠ c) (m : List Char) :
    stripChar c (x :: (m ++ [y])) = x :: (m ++ [y]) := by
  have h1 : List.dropWhile (fun z => z = c) (x :: (m ++ [y])) = x :: (m ++ [y]) := by
    simp [List.dropWhile_cons, hx]
  have h2 := dropWhile_rev_concat c y hy (x :: m)
  rw [stripChar, h1]
  simpa using h2

theorem stripChar_cons_concat (c x y : Char) (hx : x ≠ c) (hy : y ≠ c)
    (m : List Char) (l : List Char) (hl : l = x :: m ++ [y]) :
    stripChar c l = l := by
  subst hl
  simpa using stripChar_concat c x y hx hy m

/-! ### Claim theorems -/

/-- C1 (code bug): the spec requires that no line content can abort the run,
but a line holding a truthy non-object JSON value — for example the line
`5`, which `json.loads` decodes to the integer `5` — passes the `if entry:`
test and then crashes in `analyze_entry` at `entry.get(...)` with
`AttributeError`, which propagates to `main` and exits non-zero.  A decode
failure (`none`) is indeed silently skipped with no counter change. -/
theorem claim_C1 :
    handle_line (some (Json.num 5)) initState = .error "AttributeError: no attribute get" ∧
    handle_line none initState = .ok initState :=
  ⟨rfl, rfl⟩

/-- C2: the four reference decompositions of `analyze_request_uri` from the
spec hold exactly as stated. -/
theorem claim_C2 :
    analyze_request_uri "/api/v1/namespaces/foo/pods" =
      { api_group := "core", version := "v1", resource := "pods",
        namespaced := true, ns := some "foo", query_params := [] } ∧
    analyze_request_uri "/apis/apps/v1/namespaces/foo/deployments" =
      { api_group := "apps", version := "v1", resource := "deployments",
        namespaced := true, ns := some "foo", query_params := [] } ∧
    analyze_request_uri "/api/v1/namespaces/foo" =
      { api_group := "core", version := "v1", resource := "namespaces",
        namespaced := true, ns := some "foo", query_params := [] } ∧
    analyze_request_uri "/api/v1/pods" =
      { api_group := "core", version := "v1", resource := "pods",
        namespaced := false, ns := none, query_params := [] } :=
  ⟨rfl, rfl, rfl, rfl⟩

/-- C5: a request is a watch request iff the literal substring `watch=true`
occurs in the raw URI (pure substring containment, not a parsed-parameter
check), together with the three reference evaluations. -/
theorem claim_C5 :
    (∀ uri : String,
      is_watch_request uri = true ↔ ∃ p s : String, uri = p ++ "watch=true" ++ s) ∧
    is_watch_request "/api/v1/pods?watch=true" = true ∧
    is_watch_request "/api/v1/pods?watch=false" = false ∧
    is_watch_request "/api/v1/pods" = false := by
  refine ⟨?_, rfl, rfl, rfl⟩
  intro uri
  rw [is_watch_request, containsSub_iff]
  constructor
  · rintro ⟨s, t, h⟩
    refine ⟨⟨s⟩, ⟨t⟩, String.ext ?_⟩
    simpa using h
  · rintro ⟨p, s, rfl⟩
    exact ⟨p.data, s.data, by simp⟩

/-- C6: a decoded record (a nonempty JSON object) whose `stage` is neither
`ResponseComplete` nor `ResponseStarted` increments the total-request
counter by exactly one and changes nothing else: the cluster-profile map and
the system-request list of the resulting state are untouched.  (The
increment happens before the stage filter, so the total can exceed the sum
of all per-tenant and system-request counts.) -/
theorem claim_C6 (kvs : List (String × Json)) (st : AnalyzerState)
    (hne : kvs ≠ [])
    (hstage : (jeqStr ((kvs.lookup "stage").getD (Json.str "")) "ResponseComplete" ||
               jeqStr ((kvs.lookup "stage").getD (Json.str "")) "ResponseStarted") = false) :
    analyze_entry (Json.obj kvs) st =
      .ok { st with total_requests := st.total_requests + 1 } := by
  have ht : jsonTruthy (Json.obj kvs) = true := by
    simp [jsonTruthy, hne]
  simp only [analyze_entry, ht, Bool.true_eq_false, if_false, hstage, if_true]

/-- Witness for C6 at a concrete `RequestReceived` record and the initial
state. -/
theorem claim_C6_witness :
    analyze_entry (Json.obj [("stage", Json.str "RequestReceived")]) initState =
      .ok { initState with total_requests := initState.total_requests + 1 } :=
  claim_C6 [("stage", Json.str "RequestReceived")] initState (by simp) (by decide)

/-- C3 (counterexample): on the extended-API path
`/apis/apps/v1/namespaces/foo` the claimed default `resource = "namespaces"`
does not hold — the `apis` branch of `analyze_request_uri` (lines 90-94) has
no such fallback, so the resource stays `"unknown"`. -/
theorem claim_C3_counterexample :
    (analyze_request_uri "/apis/apps/v1/namespaces/foo").resource ≠ "namespaces" ∧
    analyze_request_uri "/apis/apps/v1/namespaces/foo" =
      { api_group := "apps", version := "v1", resource := "unknown",
        namespaced := true, ns := some "foo", query_params := [] } :=
  ⟨by decide, rfl⟩

/-- C3 (amended): for every path `/apis/G/V/namespaces/N` with no segment
after the namespace name, `classify` returns `namespaced = true` and
`namespace = N`, but the resource keeps its default `"unknown"`: the
legacy-core fallback to the literal `"namespaces"` is not mirrored in the
extended-API branch. -/
theorem claim_C3 (G V N : List Char)
    (hG1 : '/' ∉ G) (hG2 : '?' ∉ G) (hV1 : '/' ∉ V) (hV2 : '?' ∉ V)
    (hN1 : '/' ∉ N) (hN2 : '?' ∉ N) (hne : N ≠ []) :
    analyze_request_uri (String.mk ('/' :: ("apis".data ++ '/' :: (G ++ '/' ::
        (V ++ '/' :: ("namespaces".data ++ '/' :: N)))))) =
      { api_group := String.mk G, version := String.mk V, resource := "unknown",
        namespaced := true, ns := some (String.mk N), query_params := [] } := by
  rcases N.eq_nil_or_concat with rfl | ⟨N', y, rfl⟩
  · exact absurd rfl hne
  simp only [List.concat_eq_append] at hN1 hN2 ⊢
  have hN1a : '/' ∉ N' := fun h => hN1 (by simp [h])
  have hy : y ≠ '/' := fun h => hN1 (by simp [h])
  have hN2a : '?' ∉ N' := fun h => hN2 (by simp [h])
  have hy2 : ¬ ('?' = y) := fun h => hN2 (by simp [← h])
  have hq : '?' ∉ ('/' :: ("apis".data ++ '/' :: (G ++ '/' ::
      (V ++ '/' :: ("namespaces".data ++ '/' :: (N' ++ [y])))))) := by
    have d1 : '?' ∉ "apis".data := by decide
    have d2 : '?' ∉ "namespaces".data := by decide
    simp [List.mem_cons, List.mem_append, d1, d2, hG2, hV2, hN2a, hy2]
  have hsq := splitOnChar_not_mem hq
  have e1 : splitOnChar '/' "apis".data = ["apis".data] :=
    splitOnChar_not_mem (by decide)
  have e2 : splitOnChar '/' "namespaces".data = ["namespaces".data] :=
    splitOnChar_not_mem (by decide)
  have eG := splitOnChar_not_mem hG1
  have eV := splitOnChar_not_mem hV1
  have eN := splitOnChar_not_mem hN1
  have hstrip : stripChar '/' ("apis".data ++ '/' :: (G ++ '/' ::
      (V ++ '/' :: ("namespaces".data ++ '/' :: (N' ++ [y]))))) =
      "apis".data ++ '/' :: (G ++ '/' :: (V ++ '/' ::
        ("namespaces".data ++ '/' :: (N' ++ [y])))) := by
    refine stripChar_cons_concat '/' 'a' y (by decide) hy
      ("pis".data ++ '/' :: (G ++ '/' :: (V ++ '/' :: ("namespaces".data ++ '/' :: N')))) _ ?_
    simp [List.append_assoc]
  have hsplit : splitOnChar '/' ("apis".data ++ '/' :: (G ++ '/' ::
      (V ++ '/' :: ("namespaces".data ++ '/' :: (N' ++ [y]))))) =
      ["apis".data, G, V, "namespaces".data, N' ++ [y]] := by
    rw [splitOnChar_append, e1, splitOnChar_append, eG, splitOnChar_append, eV,
      splitOnChar_append, e2, eN]
    rfl
  have hmk : (String.mk ('/' :: ("apis".data ++ '/' :: (G ++ '/' ::
      (V ++ '/' :: ("namespaces".data ++ '/' :: (N' ++ [y]))))))).data =
      '/' :: ("apis".data ++ '/' :: (G ++ '/' ::
        (V ++ '/' :: ("namespaces".data ++ '/' :: (N' ++ [y]))))) := rfl
  have hcq : containsSub "?".data ('/' :: ("apis".data ++ '/' :: (G ++ '/' ::
      (V ++ '/' :: ("namespaces".data ++ '/' :: (N' ++ [y])))))) = false :=
    containsSub_single_eq_false hq
  have c1 : ¬ ("apis".data = "api".data) := by decide
  simp only [analyze_request_uri, hmk, hsq, List.headD_cons,
    stripChar_cons_self, hstrip, hsplit, hcq, Bool.false_eq_true, if_false]
  simp [c1, List.getD]

/-- Witness for C3 at `G = apps`, `V = v1`, `N = foo`. -/
theorem claim_C3_witness :
    analyze_request_uri (String.mk ('/' :: ("apis".data ++ '/' :: ("apps".data ++ '/' ::
        ("v1".data ++ '/' :: ("namespaces".data ++ '/' :: "foo".data)))))) =
      { api_group := String.mk "apps".data, version := String.mk "v1".data,
        resource := "unknown", namespaced := true,
        ns := some (String.mk "foo".data), query_params := [] } :=
  claim_C3 "apps".data "v1".data "foo".data (by decide) (by decide) (by decide)
    (by decide) (by decide) (by decide) (by decide)

/-- C9: a URI whose path has fewer than two segments (which covers the empty
string, strings without `/`, and bare query strings) leaves every path field
of the descriptor at its default, together with the concrete evaluations for
the empty string, a bare word, a bare query string, and a URI whose query
string is malformed (which yields an empty mapping, not a failure). -/
theorem claim_C9 :
    (∀ uri : String,
      (splitOnChar '/' (stripChar '/' ((splitOnChar '?' uri.data).headD []))).length < 2 →
      (analyze_request_uri uri).api_group = "core" ∧
      (analyze_request_uri uri).version = "v1" ∧
      (analyze_request_uri uri).resource = "unknown" ∧
      (analyze_request_uri uri).namespaced = false ∧
      (analyze_request_uri uri).ns = none) ∧
    analyze_request_uri "" =
      { api_group := "core", version := "v1", resource := "unknown",
        namespaced := false, ns := none, query_params := [] } ∧
    analyze_request_uri "pods" =
      { api_group := "core", version := "v1", resource := "unknown",
        namespaced := false, ns := none, query_params := [] } ∧
    analyze_request_uri "?watch=true" =
      { api_group := "core", version := "v1", resource := "unknown",
        namespaced := false, ns := none,
        query_params := [("watch", QVal.one "true")] } ∧
    (analyze_request_uri "/api/v1/pods?&x&=").query_params = [] := by
  refine ⟨?_, rfl, rfl, rfl, rfl⟩
  intro uri h
  have hn : ¬ (2 ≤ (splitOnChar '/'
      (stripChar '/' ((splitOnChar '?' uri.data).headD []))).length) := by omega
  simp only [analyze_request_uri, if_neg hn]
  exact ⟨trivial, trivial, trivial, trivial, trivial⟩

/-- Witness for C9 at the one-segment URI `"pods"`. -/
theorem claim_C9_witness :
    (analyze_request_uri "pods").api_group = "core" ∧
    (analyze_request_uri "pods").version = "v1" ∧
    (analyze_request_uri "pods").resource = "unknown" ∧
    (analyze_request_uri "pods").namespaced = false ∧
    (analyze_request_uri "pods").ns = none :=
  claim_C9.1 "pods" (by decide)

theorem splitFirstEq_eq_none {f : List Char} (h : '=' ∉ f) : splitFirstEq f = none := by
  induction f with
  | nil => rfl
  | cons c rest ih =>
    simp only [List.mem_cons, not_or] at h
    have hc : ¬ (c = '=') := fun hh => h.1 hh.symm
    simp [splitFirstEq, hc, ih h.2]

theorem splitFirstEq_concat {nm : List Char} (h : '=' ∉ nm) :
    splitFirstEq (nm ++ ['=']) = some (nm, []) := by
  induction nm with
  | nil => simp [splitFirstEq]
  | cons c rest ih =>
    simp only [List.mem_cons, not_or] at h
    have hc : ¬ (c = '=') := fun hh => h.1 hh.symm
    simp [splitFirstEq, hc, ih h.2]

theorem fieldParse_eq_none {f : List Char} (h : valuelessField f) :
    fieldParse f = none := by
  rcases h with h | ⟨nm, hnm, rfl⟩
  · rw [fieldParse, splitFirstEq_eq_none h]
  · rw [fieldParse, splitFirstEq_concat hnm]
    simp

theorem pyParseQs_drop_field (q1 f q2 : List Char) (hf : '&' ∉ f)
    (hv : valuelessField f) :
    pyParseQs (q1 ++ '&' :: (f ++ '&' :: q2)) = pyParseQs (q1 ++ '&' :: q2) := by
  unfold pyParseQs
  rw [splitOnChar_append, splitOnChar_append, splitOnChar_not_mem hf,
    splitOnChar_append]
  simp [List.filterMap_append, fieldParse_eq_none hv]

/-- The query-parameter mapping of a URI with at least one `?`: it is built
from the text between the first `?` and the next `?` (or the end). -/
theorem queryParams_eq (p rest : List Char) (hp : '?' ∉ p) :
    (analyze_request_uri (String.mk (p ++ '?' :: rest))).query_params =
      flattenParams (pyParseQs ((splitOnChar '?' rest).headD [])) := by
  have hmk : (String.mk (p ++ '?' :: rest)).data = p ++ '?' :: rest := rfl
  have hc : containsSub "?".data (p ++ '?' :: rest) = true := by
    rw [show "?".data = ['?'] from rfl, containsSub_iff]
    exact ⟨p, rest, by simp⟩
  have hg : (splitOnChar '?' (p ++ '?' :: rest)).getD 1 [] =
      (splitOnChar '?' rest).headD [] := by
    rw [splitOnChar_append, splitOnChar_not_mem hp]
    obtain ⟨h0, t0, hs2⟩ := List.exists_cons_of_ne_nil (splitOnChar_ne_nil '?' rest)
    rw [hs2]
    rfl
  simp only [analyze_request_uri, hmk, hc, if_true, hg]

/-- C10: (a) with two or more `?` in the URI, the query parameters are built
only from the substring strictly between the first and second `?`; (b) a
field with no `=` or with an empty value is omitted from the mapping
entirely — dropping such a field from the query string leaves the resulting
mapping unchanged. -/
theorem claim_C10 :
    (∀ p q r : List Char, '?' ∉ p → '?' ∉ q →
      (analyze_request_uri (String.mk (p ++ '?' :: (q ++ '?' :: r)))).query_params =
        flattenParams (pyParseQs q)) ∧
    (∀ p q1 f q2 : List Char, '?' ∉ p → '?' ∉ q1 → '?' ∉ f → '?' ∉ q2 →
      '&' ∉ f → valuelessField f →
      (analyze_request_uri
          (String.mk (p ++ '?' :: (q1 ++ '&' :: (f ++ '&' :: q2))))).query_params =
        (analyze_request_uri (String.mk (p ++ '?' :: (q1 ++ '&' :: q2)))).query_params) := by
  constructor
  · intro p q r hp hq
    rw [queryParams_eq p (q ++ '?' :: r) hp, splitOnChar_append, splitOnChar_not_mem hq]
    rfl
  · intro p q1 f q2 hp h1 hf2 h2 hamp hv
    have hb : ¬ ('?' = '&') := by decide
    have hq1 : '?' ∉ q1 ++ '&' :: (f ++ '&' :: q2) := by
      simp [List.mem_append, List.mem_cons, h1, hf2, h2, hb]
    have hq2 : '?' ∉ q1 ++ '&' :: q2 := by
      simp [List.mem_append, List.mem_cons, h1, h2, hb]
    rw [queryParams_eq p _ hp, queryParams_eq p _ hp,
      splitOnChar_not_mem hq1, splitOnChar_not_mem hq2]
    simp only [List.headD_cons]
    rw [pyParseQs_drop_field q1 f q2 hamp hv]

/-- Witness for C10: both parts at concrete URIs. -/
theorem claim_C10_witness :
    (analyze_request_uri (String.mk ("/x".data ++ '?' ::
        ("a=1".data ++ '?' :: "b=2".data)))).query_params =
      flattenParams (pyParseQs "a=1".data) ∧
    (analyze_request_uri (String.mk ("/x".data ++ '?' ::
        ("a=1".data ++ '&' :: ("watch=".data ++ '&' :: "b=2".data))))).query_params =
      (analyze_request_uri (String.mk ("/x".data ++ '?' ::
        ("a=1".data ++ '&' :: "b=2".data)))).query_params :=
  ⟨claim_C10.1 "/x".data "a=1".data "b=2".data (by decide) (by decide),
   claim_C10.2 "/x".data "a=1".data "watch=".data "b=2".data (by decide) (by decide)
     (by decide) (by decide) (by decide)
     (Or.inr ⟨"watch".data, by decide, by decide⟩)⟩

/-! ### Characterizing the `cattle-system` regular-expression search -/

theorem dropLit_eq_some {p l r : List Char} :
    dropLit p l = some r ↔ l = p ++ r := by
  induction p generalizing l with
  | nil => simp [dropLit]
  | cons x xs ih =>
    cases l with
    | nil => simp [dropLit]
    | cons y ys =>
      by_cases hxy : x = y
      · subst hxy
        simp [dropLit, ih]
      · simp only [dropLit, if_neg hxy]
        constructor
        · intro h; exact absurd h (by simp)
        · intro h
          exact absurd ((List.cons_eq_cons.mp (by simpa using h)).1)
            (fun hh => hxy hh.symm)

theorem takeWhile_append_stop {p : Char → Bool} {A r : List Char} {c : Char}
    (hA : ∀ a ∈ A, p a = true) (hc : p c = false) :
    (A ++ c :: r).takeWhile p = A ∧ (A ++ c :: r).dropWhile p = c :: r := by
  induction A with
  | nil => simp [List.takeWhile_cons, List.dropWhile_cons, hc]
  | cons a as ih =>
    have ha := hA a (by simp)
    have ih' := ih (fun x hx => hA x (by simp [hx]))
    simp [List.takeWhile_cons, List.dropWhile_cons, ha, ih'.1, ih'.2]

theorem tryCattle_eq_some {l g : List Char} :
    tryCattle l = some g ↔
      ∃ c rest, l = "cattle-system-".data ++ g ++ ":cattle-".data ++ c :: rest ∧
        g ≠ [] ∧ ':' ∉ g ∧ c ≠ ':' := by
  constructor
  · intro h
    unfold tryCattle at h
    cases hd : dropLit "cattle-system-".data l with
    | none => rw [hd] at h; exact absurd h (by simp)
    | some r1 =>
      rw [hd] at h
      dsimp only at h
      by_cases hg1 : r1.takeWhile (fun c => c ≠ ':') = []
      · rw [if_pos hg1] at h; exact absurd h (by simp)
      · rw [if_neg hg1] at h
        cases hd2 : dropLit ":cattle-".data (r1.dropWhile (fun c => c ≠ ':')) with
        | none => rw [hd2] at h; exact absurd h (by simp)
        | some r2 =>
          rw [hd2] at h
          cases r2 with
          | nil => exact absurd h (by simp)
          | cons c cs =>
            dsimp only at h
            by_cases hcc : c = ':'
            · rw [if_pos hcc] at h; exact absurd h (by simp)
            · rw [if_neg hcc] at h
              have hgg : g = r1.takeWhile (fun c => c ≠ ':') := by
                cases h; rfl
              refine ⟨c, cs, ?_, ?_, ?_, hcc⟩
              · have hl : l = "cattle-system-".data ++ r1 := dropLit_eq_some.mp hd
                have hr1 : r1 = r1.takeWhile (fun c => c ≠ ':') ++
                    (":cattle-".data ++ c :: cs) := by
                  conv_lhs => rw [← List.takeWhile_append_dropWhile
                    (fun c => decide (c ≠ ':')) r1]
                  rw [dropLit_eq_some.mp hd2]
                rw [hl, hr1, hgg]
                simp [List.append_assoc]
              · rw [hgg]; exact hg1
              · rw [hgg]
                intro hmem
                have := List.mem_takeWhile_imp hmem
                simp at this
  · rintro ⟨c, rest, rfl, hg, hgc, hc⟩
    unfold tryCattle
    have hshape : "cattle-system-".data ++ g ++ ":cattle-".data ++ c :: rest =
        "cattle-system-".data ++ (g ++ ':' :: ("cattle-".data ++ c :: rest)) := by
      simp [List.append_assoc]
    rw [hshape]
    have hd : dropLit "cattle-system-".data
        ("cattle-system-".data ++ (g ++ ':' :: ("cattle-".data ++ c :: rest))) =
        some (g ++ ':' :: ("cattle-".data ++ c :: rest)) :=
      dropLit_eq_some.mpr rfl
    rw [hd]
    dsimp only
    have htw := takeWhile_append_stop (p := fun z => decide (z ≠ ':'))
      (A := g) (r := "cattle-".data ++ c :: rest) (c := ':')
      (fun a ha => by
        simp only [decide_eq_true_eq, ne_eq]
        intro hh
        exact hgc (hh ▸ ha))
      (by simp)
    rw [htw.1, htw.2, if_neg hg]
    have hd2 : dropLit ":cattle-".data (':' :: ("cattle-".data ++ c :: rest)) =
        some (c :: rest) := dropLit_eq_some.mpr rfl
    rw [hd2]
    dsimp only
    rw [if_neg hc]

theorem searchCattle_some_suffix {l g : List Char} (h : searchCattle l = some g) :
    ∃ t, t <:+ l ∧ tryCattle t = some g := by
  induction l with
  | nil => simp [searchCattle] at h
  | cons x xs ih =>
    rw [searchCattle] at h
    cases ht : tryCattle (x :: xs) with
    | some g' =>
      rw [ht] at h
      cases h
      exact ⟨x :: xs, List.suffix_refl _, ht⟩
    | none =>
      rw [ht] at h
      obtain ⟨t, hsuf, htc⟩ := ih h
      exact ⟨t, hsuf.trans (List.suffix_cons x xs), htc⟩

theorem searchCattle_isSome_of {l t : List Char} (hsuf : t <:+ l)
    (h : (tryCattle t).isSome = true) : (searchCattle l).isSome = true := by
  induction l with
  | nil =>
    rw [List.suffix_nil.mp hsuf] at h
    rw [show tryCattle [] = none from rfl] at h
    exact absurd h (by simp)
  | cons x xs ih =>
    rcases List.suffix_cons_iff.mp hsuf with rfl | hsuf'
    · rw [searchCattle]
      cases ht : tryCattle (x :: xs) with
      | some g => simp
      | none => rw [ht] at h; exact absurd h (by simp)
    · rw [searchCattle]
      cases ht : tryCattle (x :: xs) with
      | some g => simp
      | none => simpa using ih hsuf'

theorem cattleMarker_iff_isSome {u : List Char} :
    cattleMarker u ↔ (searchCattle u).isSome = true := by
  constructor
  · rintro ⟨p, A, B, s, rfl, hA, hAc, hB, hBc⟩
    obtain ⟨c, B', rfl⟩ := List.exists_cons_of_ne_nil hB
    have hc : c ≠ ':' := fun h => hBc (by simp [h])
    have htry : tryCattle ("cattle-system-".data ++ A ++ ":cattle-".data ++
        c :: (B' ++ s)) = some A :=
      tryCattle_eq_some.mpr ⟨c, B' ++ s, by simp [List.append_assoc], hA, hAc, hc⟩
    have hsuf : ("cattle-system-".data ++ A ++ ":cattle-".data ++ c :: (B' ++ s)) <:+
        (p ++ "cattle-system-".data ++ A ++ ":cattle-".data ++ c :: B' ++ s) :=
      ⟨p, by simp [List.append_assoc]⟩
    exact searchCattle_isSome_of hsuf (by rw [htry]; rfl)
  · intro h
    obtain ⟨g, hg⟩ := Option.isSome_iff_exists.mp h
    obtain ⟨t, hsuf, htc⟩ := searchCattle_some_suffix hg
    obtain ⟨c, rest, rfl, hgne, hgc, hc⟩ := tryCattle_eq_some.mp htc
    obtain ⟨p, rfl⟩ := hsuf
    refine ⟨p, g, [c], rest, by simp [List.append_assoc], hgne, hgc, by simp, ?_⟩
    intro hmem
    have hcc : ':' = c := by simpa using hmem
    exact hc hcc.symm

/-- C4 (amended): attribution is total; a principal is mapped to a
recognized-tenant id (`rancher-` + identifier) precisely when it contains a
`cattle-system-A:cattle-B` marker — the two identifiers need not be equal,
and the tenant id is taken from the first capture of the leftmost match.
Otherwise a known static system user name or a `system:`-prefixed principal
maps to the system sentinel, and everything else to `unknown`; the concrete
evaluations of the spec also hold. -/
theorem claim_C4 :
    (∀ u : List Char,
      (cattleMarker u ↔
        ∃ g, clusterIdOfUsername (String.mk u) = "rancher-" ++ String.mk g ∧
          g ≠ [] ∧ ':' ∉ g) ∧
      (¬ cattleMarker u →
        ((String.mk u = "kwok-admin" ∨ String.mk u = "system:apiserver" ∨
            startsWithL "system:".data u = true) →
          clusterIdOfUsername (String.mk u) = "kwok-system") ∧
        (¬ (String.mk u = "kwok-admin" ∨ String.mk u = "system:apiserver" ∨
            startsWithL "system:".data u = true) →
          clusterIdOfUsername (String.mk u) = "unknown"))) ∧
    clusterIdOfUsername "system:serviceaccount:cattle-system-abc123:cattle-abc123" =
      "rancher-abc123" ∧
    clusterIdOfUsername "system:apiserver" = "kwok-system" ∧
    clusterIdOfUsername "alice" = "unknown" := by
  refine ⟨?_, rfl, rfl, rfl⟩
  intro u
  constructor
  · constructor
    · intro hm
      obtain ⟨g, hg⟩ := Option.isSome_iff_exists.mp (cattleMarker_iff_isSome.mp hm)
      obtain ⟨t, hsuf, htc⟩ := searchCattle_some_suffix hg
      obtain ⟨c, rest, ht, hgne, hgc, hc⟩ := tryCattle_eq_some.mp htc
      refine ⟨g, ?_, hgne, hgc⟩
      rw [clusterIdOfUsername]
      rw [show (String.mk u).data = u from rfl, hg]
    · rintro ⟨g, hval, hgne, hgc⟩
      by_contra hnm
      have hnone : searchCattle u = none := by
        cases hs : searchCattle u with
        | none => rfl
        | some g' => exact absurd (cattleMarker_iff_isSome.mpr (by simp [hs])) hnm
      rw [clusterIdOfUsername, show (String.mk u).data = u from rfl, hnone] at hval
      by_cases hcond : String.mk u = "kwok-admin" ∨ String.mk u = "system:apiserver" ∨
          startsWithL "system:".data u = true
      · rw [if_pos hcond] at hval
        have := congrArg String.data hval
        simp at this
      · rw [if_neg hcond] at hval
        have := congrArg String.data hval
        simp at this
  · intro hnm
    have hnone : searchCattle u = none := by
      cases hs : searchCattle u with
      | none => rfl
      | some g' => exact absurd (cattleMarker_iff_isSome.mpr (by simp [hs])) hnm
    constructor
    · intro hcond
      rw [clusterIdOfUsername, show (String.mk u).data = u from rfl, hnone, if_pos hcond]
    · intro hcond
      rw [clusterIdOfUsername, show (String.mk u).data = u from rfl, hnone, if_neg hcond]

/-- C4 (counterexample): the principal `cattle-system-a:cattle-b` embeds the
marker with two *different* identifiers; the claim says it is not a
recognized-tenant marker (so the principal should map to `unknown`), but the
code recognizes it and attributes tenant `rancher-a`. -/
theorem claim_C4_counterexample :
    clusterIdOfUsername "cattle-system-a:cattle-b" = "rancher-a" ∧
    "rancher-a" ≠ "unknown" ∧ "rancher-a" ≠ "kwok-system" :=
  ⟨rfl, by decide, by decide⟩

/-- Witness for C4: the marker is recognized on a concrete principal. -/
theorem claim_C4_witness :
    ∃ g, clusterIdOfUsername (String.mk "cattle-system-abc:cattle-abc".data) =
        "rancher-" ++ String.mk g ∧ g ≠ [] ∧ ':' ∉ g :=
  ((claim_C4.1 "cattle-system-abc:cattle-abc".data).1).mp
    ⟨[], "abc".data, "abc".data, [], by decide, by decide, by decide, by decide, by decide⟩

/-! ### The endpoint-overlap analyzer -/

theorem inter_card {s1 s2 : List String} (h1 : s1.Nodup) :
    (s1.filter (fun e => s2.contains e)).length = (s1.toFinset ∩ s2.toFinset).card := by
  rw [← List.toFinset_card_of_nodup (h1.filter _), List.toFinset_filter]
  congr 1
  ext a
  simp [List.contains, Finset.mem_filter, List.mem_toFinset]

theorem union_card {s1 s2 : List String} (h1 : s1.Nodup) (h2 : s2.Nodup) :
    unionLen s1 s2 = (s1.toFinset ∪ s2.toFinset).card := by
  rw [unionLen, List.length_append]
  have e1 : s1.length = s1.toFinset.card := (List.toFinset_card_of_nodup h1).symm
  have e2 : (s2.filter (fun e => !s1.contains e)).length =
      (s2.toFinset \ s1.toFinset).card := by
    rw [← List.toFinset_card_of_nodup (h2.filter _), List.toFinset_filter]
    congr 1
    ext a
    simp [List.contains, Finset.mem_filter, Finset.mem_sdiff, List.mem_toFinset]
  rw [e1, e2, ← Finset.card_union_of_disjoint Finset.disjoint_sdiff,
    Finset.union_sdiff_self_eq_union]

theorem overlapFinding_eq_some {c1 c2 : String} {s1 s2 : List String} {f : EndpointOverlap}
    (h1 : s1.Nodup) (h2 : s2.Nodup) :
    overlapFinding c1 s1 c2 s2 = some f ↔
      5 < (s1.toFinset ∩ s2.toFinset).card ∧
      f = { cluster1 := c1, cluster2 := c2,
            shared := (s1.toFinset ∩ s2.toFinset).card,
            overlap_pct := ((s1.toFinset ∩ s2.toFinset).card : ℚ) /
              ((s1.toFinset ∪ s2.toFinset).card : ℚ) * 100 } := by
  rw [overlapFinding]
  simp only [inter_card h1, union_card h1 h2]
  by_cases hcard : 5 < (s1.toFinset ∩ s2.toFinset).card
  · rw [if_pos hcard]
    simp [hcard, eq_comm]
  · rw [if_neg hcard]
    simp [hcard]

theorem mem_pairFindings (ps : List (String × List String)) (f : EndpointOverlap) :
    f ∈ pairFindings ps ↔
      ∃ pre mid post c1 s1 c2 s2,
        ps = pre ++ (c1, s1) :: (mid ++ (c2, s2) :: post) ∧
        overlapFinding c1 s1 c2 s2 = some f := by
  induction ps with
  | nil =>
    simp only [pairFindings, List.not_mem_nil, false_iff]
    rintro ⟨pre, mid, post, c1, s1, c2, s2, h, -⟩
    exact absurd h.symm (by simp)
  | cons hd tl ih =>
    obtain ⟨a, s⟩ := hd
    simp only [pairFindings, List.mem_append, List.mem_filterMap, ih]
    constructor
    · rintro (⟨⟨c2, s2⟩, hq, hov⟩ | ⟨pre, mid, post, c1, s1, c2, s2, rfl, hov⟩)
      · obtain ⟨mid, post, rfl⟩ := List.append_of_mem hq
        exact ⟨[], mid, post, a, s, c2, s2, by simp, hov⟩
      · exact ⟨(a, s) :: pre, mid, post, c1, s1, c2, s2, by simp, hov⟩
    · rintro ⟨pre, mid, post, c1, s1, c2, s2, hps, hov⟩
      cases pre with
      | nil =>
        rw [List.nil_append] at hps
        obtain ⟨heq, rfl⟩ := List.cons_eq_cons.mp hps
        cases heq
        exact Or.inl ⟨(c2, s2), by simp, hov⟩
      | cons x pre' =>
        obtain ⟨rfl, rfl⟩ := List.cons_eq_cons.mp (by simpa using hps)
        exact Or.inr ⟨pre', mid, post, c1, s1, c2, s2, rfl, hov⟩

/-- C7: for every list of tenant endpoint-sets (each duplicate-free, as the
`Counter` key sets of real states are), a finding `f` is emitted exactly for
the position-ordered pairs of distinct tenants whose endpoint intersection
has more than 5 elements, and it carries
`overlap% = |intersection| / |union| * 100`; pairs are enumerated without
repetition and without self-pairing (the two tenants occupy distinct
positions).  Sharing exactly 5 endpoints yields no finding, sharing 6 yields
exactly one; with fewer than two tenants the analyzer emits nothing. -/
theorem claim_C7 :
    (∀ (ps : List (String × List String)) (f : EndpointOverlap),
      (∀ p ∈ ps, p.2.Nodup) →
      (f ∈ pairFindings ps ↔
        ∃ pre mid post c1 s1 c2 s2,
          ps = pre ++ (c1, s1) :: (mid ++ (c2, s2) :: post) ∧
          5 < (s1.toFinset ∩ s2.toFinset).card ∧
          f = { cluster1 := c1, cluster2 := c2,
                shared := (s1.toFinset ∩ s2.toFinset).card,
                overlap_pct := ((s1.toFinset ∩ s2.toFinset).card : ℚ) /
                  ((s1.toFinset ∪ s2.toFinset).card : ℚ) * 100 })) ∧
    pairFindings [("t1", ["a", "b", "c", "d", "e"]),
                  ("t2", ["a", "b", "c", "d", "e"])] = [] ∧
    pairFindings [("t1", ["a", "b", "c", "d", "e", "f"]),
                  ("t2", ["a", "b", "c", "d", "e", "f"])] =
      [{ cluster1 := "t1", cluster2 := "t2", shared := 6, overlap_pct := 100 }] ∧
    (∀ clusters : List (String × ClusterData), 1 < clusters.length →
      detect_endpoint_overlaps clusters =
        pairFindings (clusters.map (fun p => (p.1, p.2.endpoints.map Prod.fst)))) ∧
    (∀ clusters : List (String × ClusterData), ¬ 1 < clusters.length →
      detect_endpoint_overlaps clusters = []) := by
  refine ⟨?_, by decide,
    by norm_num [pairFindings, overlapFinding, unionLen, List.filterMap_cons, List.filter],
    ?_, ?_⟩
  · intro ps f hnd
    rw [mem_pairFindings]
    constructor
    · rintro ⟨pre, mid, post, c1, s1, c2, s2, rfl, hov⟩
      have hs1 : s1.Nodup := hnd (c1, s1) (by simp)
      have hs2 : s2.Nodup := hnd (c2, s2) (by simp)
      obtain ⟨hcard, hf⟩ := (overlapFinding_eq_some hs1 hs2).mp hov
      exact ⟨pre, mid, post, c1, s1, c2, s2, rfl, hcard, hf⟩
    · rintro ⟨pre, mid, post, c1, s1, c2, s2, rfl, hcard, hf⟩
      have hs1 : s1.Nodup := hnd (c1, s1) (by simp)
      have hs2 : s2.Nodup := hnd (c2, s2) (by simp)
      exact ⟨pre, mid, post, c1, s1, c2, s2, rfl,
        (overlapFinding_eq_some hs1 hs2).mpr ⟨hcard, hf⟩⟩
  · intro clusters h
    rw [detect_endpoint_overlaps, if_pos h]
  · intro clusters h
    rw [detect_endpoint_overlaps, if_neg h]

/-- Witness for C7: the 6-shared-endpoint finding is in the analyzer output
of a concrete two-tenant state. -/
theorem claim_C7_witness :
    ({ cluster1 := "t1", cluster2 := "t2", shared := 6,
       overlap_pct := 100 } : EndpointOverlap) ∈
      pairFindings [("t1", ["a", "b", "c", "d", "e", "f"]),
                    ("t2", ["a", "b", "c", "d", "e", "f"])] :=
  (claim_C7.1 _ _ (by decide)).mpr
    ⟨[], [], [], "t1", ["a", "b", "c", "d", "e", "f"],
      "t2", ["a", "b", "c", "d", "e", "f"], by decide, by decide,
      by norm_num; decide⟩

/-! ### The aggregate-state invariant -/

theorem tsOrdered_depends {cd0 : ClusterData} (h : tsOrdered cd0) :
    ∀ cd1 : ClusterData, cd1.first_seen = cd0.first_seen →
      cd1.last_seen = cd0.last_seen → tsOrdered cd1 := by
  intro cd1 e1 e2
  rcases h with ⟨h1, h2⟩ | ⟨a, b, h1, h2, h3⟩
  · exact Or.inl ⟨e1.trans h1, e2.trans h2⟩
  · exact Or.inr ⟨a, b, e1.trans h1, e2.trans h2, h3⟩

theorem widenSeen_tsOrdered (ts : Option Int) {cd : ClusterData} (h : tsOrdered cd) :
    tsOrdered (widenSeen ts cd) := by
  cases ts with
  | none => exact h
  | some t =>
    unfold widenSeen
    rcases h with ⟨h1, h2⟩ | ⟨a, b, h1, h2, h3⟩
    · rw [h1, h2]
      exact Or.inr ⟨t, t, rfl, rfl, le_refl t⟩
    · rw [h1, h2]
      dsimp only
      split_ifs <;> refine Or.inr ⟨_, _, rfl, rfl, ?_⟩ <;> omega

theorem tsOrdered_update (rd : RequestData) (uri : String) (verb : Json)
    (ri : ResourceInfo) (ts : Option Int) {cd : ClusterData} (h : tsOrdered cd) :
    tsOrdered (update_cluster_data rd uri verb ri ts cd) := by
  unfold update_cluster_data
  apply widenSeen_tsOrdered
  refine tsOrdered_depends h _ ?_ ?_ <;>
    (rcases ri.ns with _ | n <;> split_ifs <;> simp <;> split_ifs <;> rfl)

theorem mem_setCluster {m : List (String × ClusterData)} {k : String} {v : ClusterData}
    {p : String × ClusterData} (h : p ∈ setCluster m k v) :
    p ∈ m ∨ (p.1 = k ∧ p.2 = v) := by
  unfold setCluster at h
  by_cases hf : (m.find? (fun p => p.1 == k)).isSome
  · rw [if_pos hf] at h
    obtain ⟨q, hq, hpq⟩ := List.mem_map.mp h
    by_cases hqk : q.1 = k
    · rw [if_pos hqk] at hpq
      right
      rw [← hpq]
      exact ⟨hqk, rfl⟩
    · rw [if_neg hqk] at hpq
      exact Or.inl (hpq ▸ hq)
  · rw [if_neg hf] at h
    rcases List.mem_append.mp h with h | h
    · exact Or.inl h
    · right
      rcases List.mem_singleton.mp h with rfl
      exact ⟨rfl, rfl⟩

theorem tsOrdered_getCluster {st : AnalyzerState} (h : stateInv st) (k : String) :
    tsOrdered (getCluster st.clusters k) := by
  unfold getCluster
  cases hf : st.clusters.find? (fun p => p.1 == k) with
  | none => exact Or.inl ⟨rfl, rfl⟩
  | some q => exact (h q (List.mem_of_find?_eq_some hf)).2

/-- C8: every successful `analyze_entry` call preserves the aggregate-state
invariant — each profile's `first_seen`/`last_seen` are both unset or both
set with `first_seen ≤ last_seen` (a parsed timestamp initializes both or
widens the range), and `kwok-system` is never a key of the cluster map. -/
theorem claim_C8 (entry : Json) (st st' : AnalyzerState) (hinv : stateInv st)
    (h : analyze_entry entry st = .ok st') : stateInv st' := by
  unfold analyze_entry at h
  by_cases ht : jsonTruthy entry = false
  · rw [if_pos ht] at h
    cases h
    exact hinv
  · rw [if_neg ht] at h
    cases entry with
    | obj kvs =>
      dsimp only at h
      by_cases hstage :
          (jeqStr ((kvs.lookup "stage").getD (Json.str "")) "ResponseComplete" ||
           jeqStr ((kvs.lookup "stage").getD (Json.str "")) "ResponseStarted") = false
      · rw [if_pos hstage] at h
        cases h
        exact fun p hp => hinv p hp
      · rw [if_neg hstage] at h
        cases hext : extract_cluster_id ((kvs.lookup "user").getD (Json.obj [])) with
        | error e => rw [hext] at h; exact Except.noConfusion h
        | ok cluster_id =>
          rw [hext] at h
          dsimp only at h
          cases huri : (kvs.lookup "requestURI").getD (Json.str "") with
          | str uri =>
            rw [huri] at h
            dsimp only at h
            by_cases hkwok : cluster_id = "kwok-system"
            · rw [if_pos hkwok] at h
              cases h
              exact fun p hp => hinv p hp
            · rw [if_neg hkwok] at h
              by_cases hhash : jsonHashable ((kvs.lookup "verb").getD (Json.str "")) = false
              · rw [if_pos hhash] at h
                exact Except.noConfusion h
              · rw [if_neg hhash] at h
                cases h
                intro p hp
                rcases mem_setCluster hp with hm | ⟨hk, hv⟩
                · exact hinv p hm
                · refine ⟨hk ▸ hkwok, ?_⟩
                  rw [hv]
                  exact tsOrdered_update _ _ _ _ _ (tsOrdered_getCluster hinv cluster_id)
          | null => rw [huri] at h; exact Except.noConfusion h
          | bool b => rw [huri] at h; exact Except.noConfusion h
          | num n => rw [huri] at h; exact Except.noConfusion h
          | arr l => rw [huri] at h; exact Except.noConfusion h
          | obj o => rw [huri] at h; exact Except.noConfusion h
    | null => exact absurd rfl ht
    | bool b => exact Except.noConfusion h
    | num n => exact Except.noConfusion h
    | str s => exact Except.noConfusion h
    | arr l => exact Except.noConfusion h

/-- Witness for C8: invariant preservation at a concrete record and the
initial state. -/
theorem claim_C8_witness :
    stateInv { clusters := [], system_requests := [], total_requests := 1 } :=
  claim_C8 (Json.obj [("stage", Json.str "RequestReceived")]) initState
    { clusters := [], system_requests := [], total_requests := 1 }
    (fun p hp => absurd hp (List.not_mem_nil p)) rfl

end AuditRun
